import Mathlib

/-! Malena: the `Typer` text-entry handler and `Text::setString`.

A shallow embedding of

* `ml::Typer::registerEvents` (src/Graphics/Typer.cpp): the callback installed with
  `onTextEntered`, and
* `ml::Text::setString`, `set_word_wrap`, `set_max_width` (src/Graphics/Text.cpp).

Modelling decisions.

* A `std::string` is a list of `char` values (`CChar`); an `sf::String`, the string a widget
  holds, is a list of UTF-32 code points (`Char32`). Both are integers.
* `std::string text = getString();` and the call `setString(text)` of the handler convert
  between the two through SFML (`sf::String::operator std::string`, the converting constructor
  `sf::String(const std::string&)`), character by character, with the `narrow` and `widen` of
  the global locale. SFML is not part of the repository: the two character conversions are the
  parameter `AnsiLocale` of the handler, and `cLocale` is their instance in the "C" locale.
* `char c = ...->unicode` narrows a 32-bit code point to an 8-bit `char`. Whether `char` is
  signed is implementation-defined; every definition takes the signedness as the parameter
  `charSigned`, and every theorem holds for both choices.
* `std::string::pop_back` on an empty string has undefined behaviour. The handler is a
  function into `Option`, and `none` stands for that fault.
* `Typer.h` is not among the sources. Following the specification (section 4.1, "invoke
  `setDisplayedText(buffer)` (4.2's entry point)"), a `Typer` is a `Text` widget and the
  handler's `setString` is `ml::Text::setString`.
* `TextManipulators::wordwrap` is not among the sources. `Text.setString` and the handler take
  it as a parameter; `TextManipulators.wordwrap` below models it from the specification.
* Widths (`float` in the source) are natural numbers of an arbitrary fixed unit.
-/

namespace ml

/-- Value of a C++ `char`. -/
abbrev CChar := Int

/-- Contents of a `std::string`. -/
abbrev CString := List CChar

/-- Value of a `char32_t`, a UTF-32 code point. -/
abbrev Char32 := Int

/-- Contents of an `sf::String`. -/
abbrev SfString := List Char32

/-- State flags a widget is queried for with `checkState`; the handler reads `FOCUSED` only. -/
inductive State where
  | FOCUSED
  deriving DecidableEq, Repr

/-- The widget `ml::Text`: the string held by the underlying `sf::Text` (the render text), the
two members `wordWrap` and `maxWidth` of `ml::Text`, and the focus flag read by `checkState`. -/
structure Text where
  string : SfString
  wordWrap : Bool
  maxWidth : Nat
  focused : Bool
  deriving DecidableEq, Repr

/-- The query `checkState(FOCUSED)`. -/
def Text.checkState (self : Text) : State → Bool
  | State.FOCUSED => self.focused

/-- The getter `getString()`. -/
def Text.getString (self : Text) : SfString := self.string

/-- Source: `void Text::set_word_wrap(bool word_wrap) { wordWrap = word_wrap; }`. -/
def Text.set_word_wrap (self : Text) (word_wrap : Bool) : Text :=
  { self with wordWrap := word_wrap }

/-- Source: `void Text::set_max_width(float max_width) { maxWidth = max_width; }`. -/
def Text.set_max_width (self : Text) (max_width : Nat) : Text :=
  { self with maxWidth := max_width }

/-- The base setter `sf::Text::setString(text)`: stores `text` as the widget's string. -/
def Text.sfSetString (self : Text) (text : SfString) : Text :=
  { self with string := text }

/-- Source of `void Text::setString(const sf::String &text)`:
```
if( wordWrap ) TextManipulators::wordwrap(*this, maxWidth);
else           sf::Text::setString(text);
```
The helper `wordwrap` receives the widget and `maxWidth`; it does not receive `text`. -/
def Text.setString (wordwrap : Text → Nat → Text) (self : Text) (text : SfString) : Text :=
  if self.wordWrap then wordwrap self self.maxWidth else self.sfSetString text

/-- Narrowing `char c = unicode;`: the code point is reduced modulo `2^8`; on a platform whose
`char` is signed the values `128..255` are read as `-128..-1`. -/
def narrow (charSigned : Bool) (unicode : Nat) : CChar :=
  if charSigned && decide (128 ≤ unicode % 256) then ((unicode % 256 : Nat) : Int) - 256
  else ((unicode % 256 : Nat) : Int)

/-- Library call `std::string::pop_back()`: removes the last character; the string must not be
empty, and `none` is the undefined behaviour of the call on an empty string. -/
def pop_back : CString → Option CString
  | [] => none
  | c :: cs => some (c :: cs).dropLast

/-- Library call `text.push_back(c)`. -/
def push_back (text : CString) (c : CChar) : CString := text ++ [c]

/-- The character conversions SFML applies between `sf::String` and `std::string`, taken from
the global locale. `encodeAnsi` is `Utf<32>::encodeAnsi` with replacement `0`: the `char` a code
point is written as (the `narrow` of the locale), or `none` where the platform writes no `char`
for a code point it cannot convert. `decodeAnsi` is `Utf<32>::decodeAnsi`: the code point a
`char` is read as (the `widen` of the locale). -/
structure AnsiLocale where
  encodeAnsi : Char32 → Option CChar
  decodeAnsi : CChar → Char32

/-- The conversion `sf::String::operator std::string()` (`toAnsiString`), which
`std::string text = getString();` applies. -/
def toAnsiString (L : AnsiLocale) (s : SfString) : CString := s.filterMap L.encodeAnsi

/-- The converting constructor `sf::String(const std::string&)`, which the call
`setString(text)` applies to bind `text` to `const sf::String&`. -/
def fromAnsiString (L : AnsiLocale) (text : CString) : SfString := text.map L.decodeAnsi

/-- The conversions of the "C" locale, the global locale of a program that sets none: a code
point of the ASCII range is written as the `char` of the same value and any other code point as
the replacement `0`; a `char` of the ASCII range is read as the code point of the same value and
any other `char` as `WEOF`, which is `0xFFFFFFFF` as a `char32_t`. -/
def cLocale : AnsiLocale where
  encodeAnsi u := if 0 ≤ u ∧ u < 128 then some u else some 0
  decodeAnsi c := if 0 ≤ c ∧ c < 128 then c else 4294967295

/-- The code point `u` survives the way to `std::string` and back: it is written as some `char`
and that `char` is read as `u` again. -/
def AnsiLocale.roundTrips (L : AnsiLocale) (u : Char32) : Bool :=
  match L.encodeAnsi u with
  | some c => decide (L.decodeAnsi c = u)
  | none => false

/-- The `char` `c` is stored as the code point of the same value, and that code point survives
the way to `std::string` and back. -/
def AnsiLocale.keepsChar (L : AnsiLocale) (c : CChar) : Bool :=
  decide (L.decodeAnsi c = c) && L.roundTrips c

/-- The callback registered by `Typer::registerEvents` with `onTextEntered`, run on a
`TextEntered` event carrying the code point `unicode`:
```
if(checkState(FOCUSED))
{
    std::string text = getString();
    char c = event->getIf<sf::Event::TextEntered>()->unicode;
    if(c == '\b') text.pop_back();
    if(c >= ' ' ||  c == '\n' || c == '\t') text.push_back(c);
    setString(text);
}
```
`getString()` returns the `sf::String` of the widget and `setString` takes a
`const sf::String&`, so `text` is converted on the way in and on the way out. -/
def Typer.onTextEntered (L : AnsiLocale) (charSigned : Bool) (wordwrap : Text → Nat → Text)
    (self : Text) (unicode : Nat) : Option Text :=
  if self.checkState State.FOCUSED then
    let text := toAnsiString L self.getString
    let c := narrow charSigned unicode
    (if c = 8 then pop_back text else some text).bind fun text =>
      let text := if 32 ≤ c ∨ c = 10 ∨ c = 9 then push_back text c else text
      some (self.setString wordwrap (fromAnsiString L text))
  else
    some self

/-- Delivery of a sequence of `TextEntered` events to the handler, in order; a fault stops the
run. -/
def Typer.run (L : AnsiLocale) (charSigned : Bool) (wordwrap : Text → Nat → Text) :
    Text → List Nat → Option Text
  | self, [] => some self
  | self, unicode :: rest =>
    (Typer.onTextEntered L charSigned wordwrap self unicode).bind fun self' =>
      Typer.run L charSigned wordwrap self' rest

/-- The code points of a string literal. -/
def lit (s : String) : SfString := s.toList.map fun c => (c.toNat : Int)

/-! ## Reference rule of the specification -/

/-- Reference rule of the specification (section 4.1), on one character: backspace removes the
last character of the buffer, or does nothing on an empty buffer; a printable character (code at
least that of space), a newline or a tab is appended; any other control character leaves the
buffer unchanged. -/
def refRule (buffer : SfString) (c : CChar) : SfString :=
  if c = 8 then buffer.dropLast
  else if 32 ≤ c ∨ c = 10 ∨ c = 9 then buffer ++ [c]
  else buffer

/-- Left fold of the reference rule over a sequence of characters. -/
def refReplay (buffer : SfString) (cs : List CChar) : SfString := cs.foldl refRule buffer

/-- No character of the sequence is a backspace met on an empty buffer, along the reference
replay from `buffer`. -/
def backspaceSafe : SfString → List CChar → Bool
  | _, [] => true
  | buffer, c :: cs => !(decide (c = 8) && buffer.isEmpty) && backspaceSafe (refRule buffer c) cs

/-! ## Word wrap -/

namespace TextManipulators

/-- Modelled from the spec: whitespace, which delimits words (`TextManipulators.h/.cpp` are not
among the sources): space, tab, newline, vertical tab, form feed, carriage return. -/
def isSpace (c : Char32) : Bool := decide (c = 32) || (decide (9 ≤ c) && decide (c ≤ 13))

/-- Modelled from the spec: step 1 of the wrap algorithm, "split `text` into
whitespace-delimited words", with `cur` the word being read. Whitespace runs are normalised
away. -/
def wordsAux : SfString → SfString → List SfString
  | cur, [] => if cur.isEmpty then [] else [cur]
  | cur, c :: cs =>
    if isSpace c then
      if cur.isEmpty then wordsAux [] cs else cur :: wordsAux [] cs
    else wordsAux (cur ++ [c]) cs

/-- Modelled from the spec: the whitespace-delimited words of a text. -/
def words (text : SfString) : List SfString := wordsAux [] text

/-- Modelled from the spec: measured width of a line, the "sum of glyph advances", for the
glyph metrics `measure`. -/
def lineWidth (measure : Char32 → Nat) (line : SfString) : Nat := (line.map measure).sum

/-- Modelled from the spec: steps 2 to 4 of the wrap algorithm. `cur` is the current line; the
next word joins it, after one space, while the line's measured width stays at most `maxWidth`;
otherwise the line is emitted and the word starts a new line, so a word wider than `maxWidth`
stands alone on its line, unsplit. -/
def fill (measure : Char32 → Nat) (maxWidth : Nat) : SfString → List SfString → List SfString
  | cur, [] => [cur]
  | cur, w :: ws =>
    if lineWidth measure (cur ++ 32 :: w) ≤ maxWidth then fill measure maxWidth (cur ++ 32 :: w) ws
    else cur :: fill measure maxWidth w ws

/-- Modelled from the spec: the lines of the wrapped text. -/
def wrapLines (measure : Char32 → Nat) (maxWidth : Nat) (text : SfString) : List SfString :=
  match words text with
  | [] => []
  | w :: ws => fill measure maxWidth w ws

/-- Modelled from the spec: step 5, "concatenate lines with a line-break character between
them". -/
def wrapText (measure : Char32 → Nat) (maxWidth : Nat) (text : SfString) : SfString :=
  [(10 : Char32)].intercalate (wrapLines measure maxWidth text)

/-- Modelled from the spec: the absent `TextManipulators::wordwrap(text, maxWidth)`, called by
`Text::setString` as `wordwrap(*this, maxWidth)`. It wraps the string the widget holds, for the
glyph metrics `measure` of the widget's font, and hands the result to the underlying render-text
setter. -/
def wordwrap (measure : Char32 → Nat) (text : Text) (maxWidth : Nat) : Text :=
  text.sfSetString (wrapText measure maxWidth text.getString)

/-- The lines of a render text: its pieces between line-break characters. -/
def lines (text : SfString) : List SfString := text.splitOn 10

/-- Glyph metrics used in the concrete examples: every glyph advances by one unit. -/
def unitMetrics : Char32 → Nat := fun _ => 1

end TextManipulators

end ml

/-! ## Helper lemmas -/

namespace ml

theorem pop_back_of_ne_nil (text : CString) (h : text ≠ []) :
    pop_back text = some text.dropLast := by
  cases text with
  | nil => exact absurd rfl h
  | cons c cs => rfl

theorem narrow_of_lt (charSigned : Bool) (unicode : Nat) (h : unicode < 128) :
    narrow charSigned unicode = (unicode : Int) := by
  have h1 : unicode % 256 = unicode := Nat.mod_eq_of_lt (by omega)
  have h2 : ¬ 128 ≤ unicode := by omega
  simp [narrow, h1, h2]

theorem narrow_congr (charSigned : Bool) (u v : Nat) (h : u % 256 = v % 256) :
    narrow charSigned u = narrow charSigned v := by
  simp [narrow, h]

theorem roundTrips_iff (L : AnsiLocale) (u : Char32) :
    L.roundTrips u = true ↔ ∃ c, L.encodeAnsi u = some c ∧ L.decodeAnsi c = u := by
  unfold AnsiLocale.roundTrips
  cases h : L.encodeAnsi u with
  | none => simp
  | some c => simp

/-- In the "C" locale every ASCII code point survives the way to `std::string` and back. -/
theorem cLocale_roundTrips (u : Char32) (h0 : 0 ≤ u) (h1 : u < 128) :
    cLocale.roundTrips u = true := by
  simp [AnsiLocale.roundTrips, cLocale, h0, h1]

/-- In the "C" locale every ASCII `char` is stored as the code point of the same value. -/
theorem cLocale_keepsChar (c : CChar) (h0 : 0 ≤ c) (h1 : c < 128) :
    cLocale.keepsChar c = true := by
  simp [AnsiLocale.keepsChar, AnsiLocale.roundTrips, cLocale, h0, h1]

/-- A string whose code points all survive the conversions is read back unchanged. -/
theorem fromAnsi_toAnsi (L : AnsiLocale) (s : SfString)
    (h : ∀ u ∈ s, L.roundTrips u = true) : fromAnsiString L (toAnsiString L s) = s := by
  induction s with
  | nil => rfl
  | cons u us ih =>
    obtain ⟨c, hc, hd⟩ := (roundTrips_iff L u).mp (h u (List.mem_cons_self _ _))
    have ih' := ih fun v hv => h v (List.mem_cons_of_mem _ hv)
    simp only [toAnsiString, fromAnsiString] at ih' ⊢
    rw [List.filterMap_cons_some hc, List.map_cons, hd, ih']

theorem toAnsi_ne_nil (L : AnsiLocale) (s : SfString)
    (h : ∀ u ∈ s, L.roundTrips u = true) (hne : s ≠ []) : toAnsiString L s ≠ [] := by
  intro he
  have := fromAnsi_toAnsi L s h
  rw [he] at this
  exact hne this.symm

theorem refRule_roundTrips (L : AnsiLocale) (s : SfString) (c : CChar)
    (h : ∀ u ∈ s, L.roundTrips u = true)
    (hk : (32 ≤ c ∨ c = 10 ∨ c = 9) → L.keepsChar c = true) :
    ∀ u ∈ refRule s c, L.roundTrips u = true := by
  intro u hu
  unfold refRule at hu
  split at hu
  · exact h u (List.mem_of_mem_dropLast hu)
  · split at hu
    · rename_i hp
      rcases List.mem_append.mp hu with hu | hu
      · exact h u hu
      · have hk' := hk hp
        simp only [AnsiLocale.keepsChar, Bool.and_eq_true] at hk'
        simp only [List.mem_singleton] at hu
        rw [hu]
        exact hk'.2
    · exact h u hu

/-- One focused event with word wrap disabled, on a buffer that survives the conversions: the
handler faults exactly on a backspace met on an empty buffer, and otherwise stores the reference
rule's result for the narrowed `char`, provided an appended `char` is stored as the code point
of the same value. -/
theorem onTextEntered_focused_nowrap (L : AnsiLocale) (charSigned : Bool)
    (wordwrap : Text → Nat → Text) (self : Text) (unicode : Nat) (hf : self.focused = true)
    (hw : self.wordWrap = false) (hb : ∀ u ∈ self.string, L.roundTrips u = true)
    (hk : (32 ≤ narrow charSigned unicode ∨ narrow charSigned unicode = 10
      ∨ narrow charSigned unicode = 9) →
        L.decodeAnsi (narrow charSigned unicode) = narrow charSigned unicode)
    (hs : ¬ (narrow charSigned unicode = 8 ∧ self.string = [])) :
    Typer.onTextEntered L charSigned wordwrap self unicode
      = some (self.sfSetString (refRule self.string (narrow charSigned unicode))) := by
  have hrt : fromAnsiString L (toAnsiString L self.string) = self.string :=
    fromAnsi_toAnsi L self.string hb
  by_cases hc : narrow charSigned unicode = 8
  · have hne : self.string ≠ [] := fun h => hs ⟨hc, h⟩
    have hne' := toAnsi_ne_nil L self.string hb hne
    have hd : fromAnsiString L (toAnsiString L self.string).dropLast = self.string.dropLast := by
      unfold fromAnsiString at hrt ⊢
      rw [List.map_dropLast, hrt]
    simp [Typer.onTextEntered, Text.checkState, Text.getString, Text.setString, hf, hw, hc,
      pop_back_of_ne_nil _ hne', refRule, hd]
  · by_cases hp : 32 ≤ narrow charSigned unicode ∨ narrow charSigned unicode = 10
        ∨ narrow charSigned unicode = 9
    · have hd : fromAnsiString L (toAnsiString L self.string ++ [narrow charSigned unicode])
          = self.string ++ [narrow charSigned unicode] := by
        unfold fromAnsiString at hrt ⊢
        rw [List.map_append, hrt, List.map_singleton, hk hp]
      simp [Typer.onTextEntered, Text.checkState, Text.getString, Text.setString, hf, hw, hc,
        hp, refRule, push_back, hd]
    · simp [Typer.onTextEntered, Text.checkState, Text.getString, Text.setString, hf, hw, hc,
        hp, refRule, hrt]

theorem run_focused_nowrap (L : AnsiLocale) (charSigned : Bool)
    (wordwrap : Text → Nat → Text) (events : List Nat) : ∀ (self : Text),
    self.focused = true → self.wordWrap = false →
    (∀ u ∈ self.string, L.roundTrips u = true) →
    (∀ u ∈ events, (32 ≤ narrow charSigned u ∨ narrow charSigned u = 10
      ∨ narrow charSigned u = 9) → L.keepsChar (narrow charSigned u) = true) →
    backspaceSafe self.string (events.map (narrow charSigned)) = true →
    Typer.run L charSigned wordwrap self events
      = some (self.sfSetString (refReplay self.string (events.map (narrow charSigned)))) := by
  induction events with
  | nil =>
    intro self _ _ _ _ _
    simp [Typer.run, refReplay, Text.sfSetString]
  | cons u us ih =>
    intro self hf hw hb hev hs
    simp only [List.map_cons, backspaceSafe, Bool.and_eq_true, Bool.not_eq_true',
      Bool.and_eq_false_imp, decide_eq_true_eq, List.isEmpty_eq_true] at hs
    obtain ⟨h1, h2⟩ := hs
    have hku := hev u (List.mem_cons_self _ _)
    have hstep := onTextEntered_focused_nowrap L charSigned wordwrap self u hf hw hb
      (fun hp => by
        have := hku hp
        simp only [AnsiLocale.keepsChar, Bool.and_eq_true, decide_eq_true_eq] at this
        exact this.1)
      (by rintro ⟨a, b⟩; simpa [b] using h1 a)
    have := ih (self.sfSetString (refRule self.string (narrow charSigned u)))
      (by simpa [Text.sfSetString] using hf) (by simpa [Text.sfSetString] using hw)
      (by simpa [Text.sfSetString] using refRule_roundTrips L self.string _ hb hku)
      (fun v hv => hev v (List.mem_cons_of_mem _ hv))
      (by simpa [Text.sfSetString] using h2)
    rw [Typer.run, hstep, Option.some_bind, this]
    simp [refReplay, Text.sfSetString]

namespace TextManipulators

theorem wordsAux_no_space (text : SfString) : ∀ (cur : SfString),
    (∀ c ∈ cur, isSpace c = false) →
    ∀ w ∈ wordsAux cur text, w ≠ [] ∧ ∀ c ∈ w, isSpace c = false := by
  induction text with
  | nil =>
    intro cur hcur w hw
    by_cases he : cur = []
    · simp [wordsAux, he] at hw
    · simp [wordsAux, he] at hw
      subst hw
      exact ⟨he, hcur⟩
  | cons c cs ih =>
    intro cur hcur w hw
    by_cases hsp : isSpace c = true
    · by_cases he : cur = []
      · simp [wordsAux, hsp, he] at hw
        exact ih [] (by simp) w hw
      · simp [wordsAux, hsp, he] at hw
        rcases hw with hw | hw
        · subst hw
          exact ⟨he, hcur⟩
        · exact ih [] (by simp) w hw
    · simp [wordsAux, hsp] at hw
      refine ih (cur ++ [c]) ?_ w hw
      intro d hd
      rcases List.mem_append.mp hd with hd | hd
      · exact hcur d hd
      · simp at hd
        subst hd
        simpa using hsp

theorem words_no_space (text : SfString) :
    ∀ w ∈ words text, w ≠ [] ∧ ∀ c ∈ w, isSpace c = false :=
  wordsAux_no_space text [] (by simp)

theorem newline_not_mem_of_no_space (w : SfString) (h : ∀ c ∈ w, isSpace c = false) :
    (10 : Char32) ∉ w := by
  intro hm
  have := h 10 hm
  simp [isSpace] at this

/-- Every line emitted by `fill` fits, or is one of the given words and wider than `maxWidth`,
as soon as the starting line does. -/
theorem fill_fits (measure : Char32 → Nat) (maxWidth : Nat) (S : List SfString)
    (ws : List SfString) : ∀ (cur : SfString),
    (lineWidth measure cur ≤ maxWidth ∨ cur ∈ S) → (∀ w ∈ ws, w ∈ S) →
    ∀ line ∈ fill measure maxWidth cur ws,
      lineWidth measure line ≤ maxWidth ∨ (line ∈ S ∧ maxWidth < lineWidth measure line) := by
  induction ws with
  | nil =>
    intro cur hcur _ line hl
    simp [fill] at hl
    subst hl
    rcases hcur with h | h
    · exact Or.inl h
    · rcases Nat.lt_or_ge maxWidth (lineWidth measure line) with h1 | h1
      · exact Or.inr ⟨h, h1⟩
      · exact Or.inl h1
  | cons w ws ih =>
    intro cur hcur hws line hl
    have hws' : ∀ v ∈ ws, v ∈ S := fun v hv => hws v (List.mem_cons_of_mem _ hv)
    by_cases hfit : lineWidth measure (cur ++ 32 :: w) ≤ maxWidth
    · simp only [fill, hfit, if_true] at hl
      exact ih (cur ++ 32 :: w) (Or.inl hfit) hws' line hl
    · simp only [fill, hfit, if_false, List.mem_cons] at hl
      rcases hl with hl | hl
      · subst hl
        rcases hcur with h | h
        · exact Or.inl h
        · rcases Nat.lt_or_ge maxWidth (lineWidth measure line) with h1 | h1
          · exact Or.inr ⟨h, h1⟩
          · exact Or.inl h1
      · exact ih w (Or.inr (hws w (List.mem_cons_self _ _))) hws' line hl

theorem fill_no_newline (measure : Char32 → Nat) (maxWidth : Nat) (ws : List SfString) :
    ∀ (cur : SfString), (10 : Char32) ∉ cur → (∀ w ∈ ws, (10 : Char32) ∉ w) →
    ∀ line ∈ fill measure maxWidth cur ws, (10 : Char32) ∉ line := by
  induction ws with
  | nil =>
    intro cur hcur _ line hl
    simp [fill] at hl
    subst hl
    exact hcur
  | cons w ws ih =>
    intro cur hcur hws line hl
    have hw : (10 : Char32) ∉ w := hws w (List.mem_cons_self _ _)
    have hws' : ∀ v ∈ ws, (10 : Char32) ∉ v := fun v hv => hws v (List.mem_cons_of_mem _ hv)
    by_cases hfit : lineWidth measure (cur ++ 32 :: w) ≤ maxWidth
    · simp only [fill, hfit, if_true] at hl
      refine ih (cur ++ 32 :: w) ?_ hws' line hl
      simp only [List.mem_append, List.mem_cons, not_or]
      exact ⟨hcur, by decide, hw⟩
    · simp only [fill, hfit, if_false, List.mem_cons] at hl
      rcases hl with hl | hl
      · subst hl
        exact hcur
      · exact ih w hw hws' line hl

theorem fill_ne_nil (measure : Char32 → Nat) (maxWidth : Nat) (cur : SfString)
    (ws : List SfString) : fill measure maxWidth cur ws ≠ [] := by
  induction ws generalizing cur with
  | nil => simp [fill]
  | cons w ws ih =>
    by_cases hfit : lineWidth measure (cur ++ 32 :: w) ≤ maxWidth
    · simp only [fill, hfit, if_true]
      exact ih _
    · simp [fill, hfit]

/-- The lines of the wrapped text are the lines the algorithm emitted (one empty line when the
text has no word). -/
theorem lines_wrapText (measure : Char32 → Nat) (maxWidth : Nat) (text : SfString) :
    lines (wrapText measure maxWidth text)
      = if words text = [] then [[]] else wrapLines measure maxWidth text := by
  cases hw : words text with
  | nil => simp [lines, wrapText, wrapLines, hw, List.intercalate]
  | cons w ws =>
    have hmem : ∀ v ∈ w :: ws, (10 : Char32) ∉ v := by
      intro v hv
      exact newline_not_mem_of_no_space v (words_no_space text v (hw ▸ hv)).2
    simp only [lines, wrapText, wrapLines, hw, if_false]
    refine List.splitOn_intercalate _ (10 : Char32) ?_ (fill_ne_nil measure maxWidth w ws)
    exact fill_no_newline measure maxWidth ws w (hmem w (List.mem_cons_self _ _))
      (fun v hv => hmem v (List.mem_cons_of_mem _ hv))

/-- Width bound of the wrap algorithm: every line of the wrapped text has measured width at most
`maxWidth`, or is a single word of the input that is itself wider than `maxWidth`. -/
theorem wrapText_lines_fit (measure : Char32 → Nat) (maxWidth : Nat) (text : SfString) :
    ∀ line ∈ lines (wrapText measure maxWidth text),
      lineWidth measure line ≤ maxWidth
        ∨ (line ∈ words text ∧ maxWidth < lineWidth measure line) := by
  intro line hl
  rw [lines_wrapText] at hl
  cases hw : words text with
  | nil =>
    simp [hw] at hl
    subst hl
    exact Or.inl (by simp [lineWidth])
  | cons w ws =>
    simp only [hw, if_false, wrapLines] at hl
    exact fill_fits measure maxWidth (w :: ws) ws w (Or.inr (List.mem_cons_self _ _))
      (fun v hv => List.mem_cons_of_mem _ hv) line hl

end TextManipulators

/-- Scenario of the specification (section 8): with `maxWidth` the width of "cat dog", the text
"cat dog fox" wraps to the lines "cat dog" and "fox". -/
theorem wrapText_scenario :
    TextManipulators.lines (TextManipulators.wrapText TextManipulators.unitMetrics 7
      (lit "cat dog fox")) = [lit "cat dog", lit "fox"] := by
  decide

end ml

/-! ## The claims -/

namespace ml

open TextManipulators

/-- C1: when the widget is not FOCUSED, the text-entered handler returns normally and leaves the
widget, hence its buffer, exactly as it was, for every buffer and every event. -/
theorem C1_unfocused_event_ignored (L : AnsiLocale) (charSigned : Bool)
    (wordwrap : Text → Nat → Text) (self : Text) (unicode : Nat)
    (h : self.checkState State.FOCUSED = false) :
    Typer.onTextEntered L charSigned wordwrap self unicode = some self := by
  simp [Typer.onTextEntered, h]

theorem C1_unfocused_event_ignored_witness :
    Text.checkState ⟨lit "abc", true, 5, false⟩ State.FOCUSED = false
      ∧ Typer.onTextEntered cLocale true (wordwrap unitMetrics) ⟨lit "abc", true, 5, false⟩ 88
          = some ⟨lit "abc", true, 5, false⟩ :=
  ⟨rfl, C1_unfocused_event_ignored cLocale true (wordwrap unitMetrics)
    ⟨lit "abc", true, 5, false⟩ 88 rfl⟩

/-- C2, the code at the failing input: on a FOCUSED widget whose buffer is empty, a backspace
event makes the handler call `pop_back` on the empty string, which is a fault (`none`), whatever
the wrap configuration, the locale and the signedness of `char`; the handler does not complete
as a no-op. -/
theorem C2_backspace_on_empty_faults (L : AnsiLocale) (charSigned : Bool)
    (wordwrap : Text → Nat → Text) (wordWrap : Bool) (maxWidth : Nat) :
    Typer.onTextEntered L charSigned wordwrap ⟨[], wordWrap, maxWidth, true⟩ 8 = none := by
  cases charSigned <;> rfl

/-- C3 as stated fails, on a FOCUSED widget. (a) U+0108 has a code of at least 32, yet on the
buffer "A" with word wrap disabled the handler treats it as a backspace: the buffer becomes
empty and is not "A" followed by any character. (b) With word wrap enabled (a state reached
through `set_word_wrap` and `set_max_width`), the event `a` on the empty buffer hands the widget
to the wrap helper and drops the edited text, whatever the helper is; with the helper of the
specification the buffer stays empty. (c) In the "C" locale, with word wrap disabled, the event
`a` on the buffer holding U+20AC gives the code points 0 and 97: the buffer before is not kept.
(d) Where `char` is unsigned, in the "C" locale, U+00E9 on the buffer "a" appends the code point
`0xFFFFFFFF`, not the character of the event. -/
theorem C3_counterexample :
    ((32 ≤ 0x108)
      ∧ (Typer.onTextEntered cLocale true (wordwrap unitMetrics) ⟨lit "A", false, 0, true⟩
          0x108).map Text.getString = some []
      ∧ ¬ ∃ c, (Typer.onTextEntered cLocale true (wordwrap unitMetrics)
          ⟨lit "A", false, 0, true⟩ 0x108).map Text.getString = some (lit "A" ++ [c]))
    ∧ ((Text.set_word_wrap ⟨[], false, 0, true⟩ true).set_max_width 10 = ⟨[], true, 10, true⟩
      ∧ (∀ ww : Text → Nat → Text,
          Typer.onTextEntered cLocale true ww ⟨[], true, 10, true⟩ 97
            = some (ww ⟨[], true, 10, true⟩ 10))
      ∧ (Typer.onTextEntered cLocale true (wordwrap unitMetrics) ⟨[], true, 10, true⟩ 97).map
          Text.getString = some []
      ∧ (Typer.onTextEntered cLocale true (wordwrap unitMetrics) ⟨[], true, 10, true⟩ 97).map
          Text.getString ≠ some (lit "a"))
    ∧ ((Typer.onTextEntered cLocale true (wordwrap unitMetrics) ⟨[0x20AC], false, 0, true⟩
          97).map Text.getString = some [0, 97]
      ∧ (Typer.onTextEntered cLocale true (wordwrap unitMetrics) ⟨[0x20AC], false, 0, true⟩
          97).map Text.getString ≠ some ([0x20AC] ++ [97]))
    ∧ ((Typer.onTextEntered cLocale false (wordwrap unitMetrics) ⟨lit "a", false, 0, true⟩
          0xE9).map Text.getString = some [97, 0xFFFFFFFF]
      ∧ (Typer.onTextEntered cLocale false (wordwrap unitMetrics) ⟨lit "a", false, 0, true⟩
          0xE9).map Text.getString ≠ some (lit "a" ++ [0xE9])) := by
  have h : (Typer.onTextEntered cLocale true (wordwrap unitMetrics) ⟨lit "A", false, 0, true⟩
      0x108).map Text.getString = some [] := by decide
  refine ⟨⟨by decide, h, ?_⟩, ⟨by decide, fun _ => rfl, by decide, by decide⟩,
    ⟨by decide, by decide⟩, ⟨by decide, by decide⟩⟩
  rintro ⟨c, hc⟩
  rw [h] at hc
  simp [lit] at hc

/-- C3, amended: for every FOCUSED event delivered while word wrap is disabled, if the event's
code point narrowed to `char` has a value of at least 32 (the code of space) or is newline or
tab, if every character of the buffer survives the handler's conversion to `std::string` and
back, and if the narrowed `char` is stored as the code point of the same value (as ASCII
characters are), then the handler returns normally and the buffer afterwards is the buffer
before with exactly that narrowed `char` appended at the end; nothing else of the widget
changes. -/
theorem C3_append_narrowed_char (L : AnsiLocale) (charSigned : Bool)
    (wordwrap : Text → Nat → Text) (self : Text) (unicode : Nat)
    (hf : self.checkState State.FOCUSED = true) (hw : self.wordWrap = false)
    (hc : 32 ≤ narrow charSigned unicode ∨ narrow charSigned unicode = 10
      ∨ narrow charSigned unicode = 9)
    (hb : self.getString.all L.roundTrips = true)
    (hk : L.decodeAnsi (narrow charSigned unicode) = narrow charSigned unicode) :
    Typer.onTextEntered L charSigned wordwrap self unicode
      = some (self.sfSetString (self.getString ++ [narrow charSigned unicode])) := by
  have h8 : ¬ (narrow charSigned unicode = 8 ∧ self.string = []) := by
    rintro ⟨h, _⟩
    rw [h] at hc
    revert hc
    decide
  have hstep := onTextEntered_focused_nowrap L charSigned wordwrap self unicode hf hw
    (by simpa [Text.getString] using hb) (fun _ => hk) h8
  have h8' : narrow charSigned unicode ≠ 8 := by
    intro h
    rw [h] at hc
    revert hc
    decide
  rw [hstep]
  simp [refRule, h8', hc, Text.getString]

theorem C3_append_narrowed_char_witness :
    Text.checkState ⟨lit "HELL", false, 0, true⟩ State.FOCUSED = true
      ∧ Text.wordWrap ⟨lit "HELL", false, 0, true⟩ = false
      ∧ (32 ≤ narrow true 79 ∨ narrow true 79 = 10 ∨ narrow true 79 = 9)
      ∧ (Text.getString ⟨lit "HELL", false, 0, true⟩).all cLocale.roundTrips = true
      ∧ cLocale.decodeAnsi (narrow true 79) = narrow true 79
      ∧ Typer.onTextEntered cLocale true (wordwrap unitMetrics) ⟨lit "HELL", false, 0, true⟩ 79
          = some (Text.sfSetString ⟨lit "HELL", false, 0, true⟩
              (Text.getString ⟨lit "HELL", false, 0, true⟩ ++ [narrow true 79])) :=
  ⟨rfl, rfl, by decide, by decide, by decide,
    C3_append_narrowed_char cLocale true (wordwrap unitMetrics) ⟨lit "HELL", false, 0, true⟩ 79
      rfl rfl (by decide) (by decide) (by decide)⟩

/-- C4, the code at the failing input: on the FOCUSED widget holding "ab" with word wrap enabled
(a state reached by `setString` of "ab" followed by `set_word_wrap` and `set_max_width`), a
backspace hands the unchanged widget to the wrap helper and drops the edited text "a", whatever
the helper is and for either signedness of `char`; with the helper of the specification the
buffer stays "ab". With word wrap disabled the same event gives "a", and the focused events H,
E, backspace from the empty buffer leave "H". -/
theorem C4_backspace_lost_under_wrap :
    ((Text.setString (wordwrap unitMetrics) ⟨[], false, 0, true⟩ (lit "ab")).set_word_wrap
        true).set_max_width 10 = ⟨lit "ab", true, 10, true⟩
      ∧ (∀ (charSigned : Bool) (ww : Text → Nat → Text),
          Typer.onTextEntered cLocale charSigned ww ⟨lit "ab", true, 10, true⟩ 8
            = some (ww ⟨lit "ab", true, 10, true⟩ 10))
      ∧ (Typer.onTextEntered cLocale true (wordwrap unitMetrics) ⟨lit "ab", true, 10, true⟩
          8).map Text.getString = some (lit "ab")
      ∧ (Typer.onTextEntered cLocale true (wordwrap unitMetrics) ⟨lit "ab", false, 10, true⟩
          8).map Text.getString = some (lit "a")
      ∧ (Typer.run cLocale true (wordwrap unitMetrics) ⟨[], false, 10, true⟩ [72, 69, 8]).map
          Text.getString = some (lit "H") :=
  ⟨by decide, fun charSigned _ => by cases charSigned <;> rfl, by decide, by decide,
    by decide⟩

/-- C5, the code at the failing input: with word wrap enabled, `setString` of the text "a" on a
widget whose string is empty leaves the render text empty, although the wrapped version of "a"
within width 10 is "a"; in general, with word wrap enabled the result of `setString` is the same
for any two `text` arguments, whatever `wordwrap` does with the widget it receives. -/
theorem C5_setString_wrap_ignores_text :
    (Text.setString (wordwrap unitMetrics) ⟨[], true, 10, false⟩ (lit "a")).getString = []
      ∧ wrapText unitMetrics 10 (lit "a") = lit "a"
      ∧ ∀ (ww : Text → Nat → Text) (s : SfString) (mw : Nat) (f : Bool) (t1 t2 : SfString),
          Text.setString ww ⟨s, true, mw, f⟩ t1 = Text.setString ww ⟨s, true, mw, f⟩ t2 :=
  ⟨by decide, by decide, fun _ _ _ _ _ _ => rfl⟩

/-- C6: with word wrap disabled, `Text::setString(text)` makes the render text equal to `text`
exactly, for every previous content, every `maxWidth` and every `text`. -/
theorem C6_setString_nowrap_identity (wordwrap : Text → Nat → Text) (self : Text)
    (text : SfString) (h : self.wordWrap = false) :
    (self.setString wordwrap text).getString = text := by
  simp [Text.setString, Text.sfSetString, Text.getString, h]

theorem C6_setString_nowrap_identity_witness :
    Text.wordWrap ⟨lit "old text", false, 3, false⟩ = false
      ∧ (Text.setString (wordwrap unitMetrics) ⟨lit "old text", false, 3, false⟩
          (lit "cat dog fox")).getString = lit "cat dog fox" :=
  ⟨rfl, C6_setString_nowrap_identity (wordwrap unitMetrics) ⟨lit "old text", false, 3, false⟩
    (lit "cat dog fox") rfl⟩

/-- C7 as stated fails, on a FOCUSED widget with word wrap disabled. (a) From the empty buffer
the single event backspace makes the handler fault, while the reference rule does nothing and
gives the empty buffer. (b) From the buffer "A" the single event U+0108, which the reference
rule appends as a printable character, empties the buffer. (c) In the "C" locale, from the
buffer holding U+263A, the events H, backspace, carriage return leave the code point 0, while
the reference rule gives the buffer back. -/
theorem C7_counterexample :
    (Typer.run cLocale true (wordwrap unitMetrics) ⟨[], false, 0, true⟩ [8] = none
      ∧ refReplay [] [8] = [])
    ∧ ((Typer.run cLocale true (wordwrap unitMetrics) ⟨lit "A", false, 0, true⟩ [0x108]).map
          Text.getString = some []
      ∧ refReplay (lit "A") [0x108] = lit "A" ++ [0x108])
    ∧ ((Typer.run cLocale true (wordwrap unitMetrics) ⟨[0x263A], false, 0, true⟩
          [72, 8, 13]).map Text.getString = some [0]
      ∧ refReplay [0x263A] [72, 8, 13] = [0x263A]) := by
  decide

/-- C7, amended: for every finite sequence of events delivered to a FOCUSED widget with word
wrap disabled, starting from any buffer whose characters survive the handler's conversion to
`std::string` and back, if no event of the sequence is a backspace met on an empty buffer and
every event that appends a `char` appends one that is stored as the code point of the same value
and survives the conversion (as ASCII characters do), then every handler call returns normally
and the buffer afterwards is the left fold of the reference rule over the events narrowed to
`char`, the rest of the widget being unchanged; in particular, in the "C" locale, the five
events H, E, L, L, O from the empty buffer give the render text "HELLO". -/
theorem C7_replay_refines_reference (L : AnsiLocale) (charSigned : Bool)
    (wordwrap : Text → Nat → Text) (self : Text) (events : List Nat)
    (hf : self.checkState State.FOCUSED = true) (hw : self.wordWrap = false)
    (hb : self.getString.all L.roundTrips = true)
    (hev : ∀ u ∈ events, (32 ≤ narrow charSigned u ∨ narrow charSigned u = 10
      ∨ narrow charSigned u = 9) → L.keepsChar (narrow charSigned u) = true)
    (hs : backspaceSafe self.getString (events.map (narrow charSigned)) = true) :
    Typer.run L charSigned wordwrap self events
        = some (self.sfSetString (refReplay self.getString (events.map (narrow charSigned))))
      ∧ (Typer.run cLocale charSigned wordwrap ⟨[], false, self.maxWidth, true⟩
          [72, 69, 76, 76, 79]).map Text.getString = some (lit "HELLO") := by
  constructor
  · exact run_focused_nowrap L charSigned wordwrap events self hf hw
      (by simpa [Text.getString] using hb) hev hs
  · cases charSigned <;> rfl

theorem C7_replay_refines_reference_witness :
    Text.checkState ⟨lit "ab", false, 0, true⟩ State.FOCUSED = true
      ∧ Text.wordWrap ⟨lit "ab", false, 0, true⟩ = false
      ∧ (Text.getString ⟨lit "ab", false, 0, true⟩).all cLocale.roundTrips = true
      ∧ (∀ u ∈ [8, 8, 0x141, 27, 9, 8, 0x108, 88],
          (32 ≤ narrow true u ∨ narrow true u = 10 ∨ narrow true u = 9) →
            cLocale.keepsChar (narrow true u) = true)
      ∧ backspaceSafe (Text.getString ⟨lit "ab", false, 0, true⟩)
          ([8, 8, 0x141, 27, 9, 8, 0x108, 88].map (narrow true)) = true
      ∧ Typer.run cLocale true (wordwrap unitMetrics) ⟨lit "ab", false, 0, true⟩
          [8, 8, 0x141, 27, 9, 8, 0x108, 88]
        = some (Text.sfSetString ⟨lit "ab", false, 0, true⟩
            (refReplay (Text.getString ⟨lit "ab", false, 0, true⟩)
              ([8, 8, 0x141, 27, 9, 8, 0x108, 88].map (narrow true)))) :=
  ⟨rfl, rfl, by decide, by decide, by decide,
    (C7_replay_refines_reference cLocale true (wordwrap unitMetrics)
      ⟨lit "ab", false, 0, true⟩ [8, 8, 0x141, 27, 9, 8, 0x108, 88] rfl rfl (by decide)
      (by decide) (by decide)).1⟩

/-- C8 as stated fails, on a FOCUSED widget and the event carriage return (code 13, a control
character other than backspace, newline and tab). (a) In the "C" locale, with word wrap
disabled, the buffer holding U+20AC becomes the code point 0: the handler writes back the text
it read through the conversion to `std::string`. (b) With word wrap enabled and `maxWidth` one
glyph wide (a state reached by `setString` of "a b" followed by `set_word_wrap` and
`set_max_width`), the handler hands the widget to the wrap helper, whatever the helper is; with
the helper of the specification the buffer "a b", not wrapped yet, becomes "a", line break,
"b". -/
theorem C8_counterexample :
    (13 < 32 ∧ 13 ≠ 8 ∧ 13 ≠ 9 ∧ 13 ≠ 10)
      ∧ ((Typer.onTextEntered cLocale true (wordwrap unitMetrics) ⟨[0x20AC], false, 0, true⟩
            13).map Text.getString = some [0]
        ∧ (Typer.onTextEntered cLocale true (wordwrap unitMetrics) ⟨[0x20AC], false, 0, true⟩
            13).map Text.getString ≠ some [0x20AC])
      ∧ (((Text.setString (wordwrap unitMetrics) ⟨[], false, 0, true⟩
            (lit "a b")).set_word_wrap true).set_max_width 1 = ⟨lit "a b", true, 1, true⟩
        ∧ (∀ ww : Text → Nat → Text,
            Typer.onTextEntered cLocale true ww ⟨lit "a b", true, 1, true⟩ 13
              = some (ww ⟨lit "a b", true, 1, true⟩ 1))
        ∧ (Typer.onTextEntered cLocale true (wordwrap unitMetrics) ⟨lit "a b", true, 1, true⟩
            13).map Text.getString = some (lit "a\nb")
        ∧ (Typer.onTextEntered cLocale true (wordwrap unitMetrics) ⟨lit "a b", true, 1, true⟩
            13).map Text.getString ≠ some (lit "a b")) :=
  ⟨by decide, ⟨by decide, by decide⟩, by decide, fun _ => rfl, by decide, by decide⟩

/-- C8, amended: for every FOCUSED event whose character is a control character other than
backspace, newline and tab (code below 32 and not 8, 9 or 10), the handler returns normally and
the widget, hence its buffer, is what it was, provided the buffer is stable under what the
handler does on every focused event: with word wrap disabled, every character of the buffer
survives the conversion to `std::string` and back (as ASCII characters do); with word wrap
enabled, the wrap helper leaves the widget as it is (the buffer is already wrapped). -/
theorem C8_other_control_ignored (L : AnsiLocale) (charSigned : Bool)
    (wordwrap : Text → Nat → Text) (self : Text) (unicode : Nat)
    (hf : self.checkState State.FOCUSED = true) (hlt : unicode < 32)
    (hc : unicode ≠ 8 ∧ unicode ≠ 9 ∧ unicode ≠ 10)
    (hn : self.wordWrap = false → self.getString.all L.roundTrips = true)
    (hw : self.wordWrap = true → wordwrap self self.maxWidth = self) :
    Typer.onTextEntered L charSigned wordwrap self unicode = some self := by
  have hnar : narrow charSigned unicode = (unicode : Int) :=
    narrow_of_lt charSigned unicode (by omega)
  have h8 : ¬ (unicode : Int) = 8 := by omega
  have hp : ¬ (32 ≤ (unicode : Int) ∨ (unicode : Int) = 10 ∨ (unicode : Int) = 9) := by omega
  simp only [Typer.onTextEntered, hf, if_true, hnar, Text.getString]
  rw [if_neg h8, Option.some_bind, if_neg hp]
  cases hww : self.wordWrap with
  | true => simp [Text.setString, hww, hw hww]
  | false =>
    have hb : ∀ u ∈ self.string, L.roundTrips u = true := by
      simpa [Text.getString] using hn hww
    have hrt := fromAnsi_toAnsi L self.string hb
    cases self with
    | mk string wordWrap maxWidth focused =>
      simp only at hww hrt
      simp [Text.setString, hww, hrt, Text.sfSetString]

theorem C8_other_control_ignored_witness :
    Text.checkState ⟨lit "a\nb", true, 1, true⟩ State.FOCUSED = true
      ∧ 13 < 32 ∧ (13 ≠ 8 ∧ 13 ≠ 9 ∧ 13 ≠ 10)
      ∧ (Text.wordWrap ⟨lit "a\nb", true, 1, true⟩ = false →
          (Text.getString ⟨lit "a\nb", true, 1, true⟩).all cLocale.roundTrips = true)
      ∧ (Text.wordWrap ⟨lit "a\nb", true, 1, true⟩ = true →
          wordwrap unitMetrics ⟨lit "a\nb", true, 1, true⟩
            (Text.maxWidth ⟨lit "a\nb", true, 1, true⟩) = ⟨lit "a\nb", true, 1, true⟩)
      ∧ Typer.onTextEntered cLocale true (wordwrap unitMetrics) ⟨lit "a\nb", true, 1, true⟩ 13
          = some ⟨lit "a\nb", true, 1, true⟩ :=
  ⟨rfl, by decide, by decide, by decide, by decide,
    C8_other_control_ignored cLocale true (wordwrap unitMetrics) ⟨lit "a\nb", true, 1, true⟩ 13
      rfl (by decide) (by decide) (by decide) (by decide)⟩

/-- C9: with word wrap enabled, for every widget content, every `text`, every `maxWidth` and
every glyph-metric function, each line of the render text produced by `Text::setString` through
the word wrap has measured width at most `maxWidth`, except a line that is a single word (of the
content the word wrap received) which is itself wider than `maxWidth`. -/
theorem C9_wrapped_lines_fit (measure : Char32 → Nat) (self : Text) (text : SfString)
    (h : self.wordWrap = true) :
    ∀ line ∈ lines (self.setString (wordwrap measure) text).getString,
      lineWidth measure line ≤ self.maxWidth
        ∨ (line ∈ words self.getString ∧ self.maxWidth < lineWidth measure line) := by
  have hs : (self.setString (wordwrap measure) text).getString
      = wrapText measure self.maxWidth self.getString := by
    simp [Text.setString, wordwrap, Text.sfSetString, Text.getString, h]
  rw [hs]
  exact wrapText_lines_fit measure self.maxWidth self.getString

theorem C9_wrapped_lines_fit_witness :
    Text.wordWrap ⟨lit "a wider cat dog", true, 3, false⟩ = true
      ∧ ∀ line ∈ lines (Text.setString (wordwrap unitMetrics)
            ⟨lit "a wider cat dog", true, 3, false⟩ (lit "x")).getString,
          lineWidth unitMetrics line ≤ Text.maxWidth ⟨lit "a wider cat dog", true, 3, false⟩
            ∨ (line ∈ words (Text.getString ⟨lit "a wider cat dog", true, 3, false⟩)
              ∧ Text.maxWidth ⟨lit "a wider cat dog", true, 3, false⟩
                  < lineWidth unitMetrics line) :=
  ⟨rfl, C9_wrapped_lines_fit unitMetrics ⟨lit "a wider cat dog", true, 3, false⟩ (lit "x") rfl⟩

/-- C10: the handler reads the event's code point through a narrowing to an 8-bit `char`, so
its effect depends on the code point modulo 256 only: for every widget and every two events
whose code points are congruent modulo 256 the handler gives the same result; in particular
U+0108 acts as the backspace U+0008, and on a focused widget with word wrap disabled U+0141
appends the letter A (code 65) to the text the handler writes back. -/
theorem C10_effect_mod_256 (L : AnsiLocale) (charSigned : Bool)
    (wordwrap : Text → Nat → Text) (self : Text) (u v : Nat) (h : u % 256 = v % 256) :
    Typer.onTextEntered L charSigned wordwrap self u
        = Typer.onTextEntered L charSigned wordwrap self v
      ∧ Typer.onTextEntered L charSigned wordwrap self 0x108
        = Typer.onTextEntered L charSigned wordwrap self 8
      ∧ Typer.onTextEntered L charSigned wordwrap ⟨self.getString, false, self.maxWidth, true⟩
          0x141 = some ⟨fromAnsiString L (toAnsiString L self.getString ++ [65]), false,
            self.maxWidth, true⟩ := by
  refine ⟨?_, ?_, ?_⟩
  · simp only [Typer.onTextEntered, narrow_congr charSigned u v h]
  · simp only [Typer.onTextEntered, narrow_congr charSigned 0x108 8 rfl]
  · cases charSigned <;> rfl

theorem C10_effect_mod_256_witness :
    0x263A % 256 = 58 % 256
      ∧ Typer.onTextEntered cLocale true (wordwrap unitMetrics) ⟨lit "ab", false, 0, true⟩
          0x263A
        = Typer.onTextEntered cLocale true (wordwrap unitMetrics) ⟨lit "ab", false, 0, true⟩
          58
      ∧ Typer.onTextEntered cLocale true (wordwrap unitMetrics) ⟨lit "ab", false, 0, true⟩
          0x141 = some ⟨lit "abA", false, 0, true⟩ :=
  ⟨by decide,
    (C10_effect_mod_256 cLocale true (wordwrap unitMetrics) ⟨lit "ab", false, 0, true⟩ 0x263A
      58 (by decide)).1, by decide⟩

end ml
